import Mathlib

/-!
Verification of the go-currency `fixedpoint` decimal library.

This file gives a shallow embedding, in Lean 4, of the parts of the Go
source that the verified properties talk about:

* the BID codecs `X64.pack` / `X64.unpack` (src/unnamed/part_011) and
  `X32.pack` / `X32.unpack` (src/fixedpoint/x32.go),
* the rounding engine `Apply` (src/fixedpoint/rounding.go) and the
  `Round` methods built on it,
* the quantize operation `quantize64` (src/unnamed/part_013),
* the context machinery `HandleSignals`, `Parse`, `Add`
  (src/unnamed/part_006),
* the input pipeline `normalizeInput`, `isSpecial`, `getDigitString`
  and the `strconv.ParseUint` call it makes.

Go fixed-width unsigned integers are embedded as `Nat` with explicit
`% 2^w` at the operations where wrap-around can actually occur; Go
`int8`/`int16` exponents are embedded as `Int` (with an explicit 16-bit
wrap where a subtraction can leave the `int16` range).  Go strings are
embedded as `List Char`.  Fallible Go functions (returning `error`, or
able to panic at run time) are embedded with `Option`, `none` standing
for the error/panic outcome.
-/

/-- Sign code of a decimal value (`signc` in src/unnamed/part_013):
negative, positive, or the error value used by fallible decoders. -/
inductive Signc where
  | negative
  | positive
  | error
deriving DecidableEq, Repr

/-- Kind tag of a decimal value (`kind` in src/unnamed/part_013). -/
inductive Kind where
  | signaling
  | quiet
  | infinity
  | finite
deriving DecidableEq, Repr

/-- Rounding modes (`Rounding` in src/fixedpoint/rounding.go). -/
inductive Rounding where
  | tiesToEven
  | tiesToAway
  | towardPositive
  | towardNegative
  | towardZero
deriving DecidableEq, Repr

/-- Signal bit set (`Signal` in src/unnamed/part_001), embedded as `Nat`
with the same bit assignments (`1 << iota` starting at Overflow). -/
def SignalOverflow : Nat := 1
def SignalUnderflow : Nat := 2
def SignalDivisionByZero : Nat := 4
def SignalDivisionImpossible : Nat := 8
def SignalInexact : Nat := 16
def SignalRounding : Nat := 32
def SignalInvalidOperation : Nat := 64
/-- `SignalConversionSyntax = sig_conversionSyntax | SignalInvalidOperation`. -/
def SignalConversionSyntax : Nat := 128 ||| SignalInvalidOperation

/-- A packed decimal64 value (`X64` in src/unnamed/part_011): a bare
64-bit word, embedded as its `Nat` value. -/
structure X64 where
  bits : Nat
deriving DecidableEq, Repr

/-- A packed decimal32 value (`X32` in src/fixedpoint/x32.go). -/
structure X32 where
  bits : Nat
deriving DecidableEq, Repr

/-- Constants for the decimal64 format (src/unnamed/part_011). -/
def eMax64 : Int := 384
def eMin64 : Int := -383
def bias64 : Int := 398
def maxCoefficient64 : Nat := 9999999999999999

/-- Constants for the decimal32 format (src/fixedpoint/x32.go). -/
def eMax32 : Int := 96
def eMin32 : Int := -95
def bias32 : Int := 101
def maxCoefficient32 : Nat := 9999999

/-- `(*X64).pack` (src/unnamed/part_011 lines 2163-2240).  Encodes the
components into the BID word; `none` is the Go non-nil `error` return.
The Go `default` arm of the kind switch is unreachable because `Kind`
has exactly the four constructors. -/
def X64.pack (k : Kind) (sign : Signc) (exp : Int) (coe : Nat) : Option X64 :=
  if sign ≠ Signc.negative ∧ sign ≠ Signc.positive then none
  else if coe > maxCoefficient64 ∧ k = Kind.finite then none
  else if (exp > eMax64 ∨ exp < eMin64) ∧ k = Kind.finite then none
  else if k = Kind.finite ∧ exp = eMin64 ∧ coe > 0 then
    -- "Check for subnormal values ... and return a signaling NaN immediately"
    some ⟨0x7E00000000000000 ||| (if sign = Signc.negative then 1 <<< 63 else 0)⟩
  else
    let result : Nat := if sign = Signc.negative then 1 <<< 63 else 0
    match k with
    | Kind.finite =>
      let biasedExp : Nat := (exp + bias64).toNat
      if coe < 1 <<< 53 then
        some ⟨result ||| ((biasedExp &&& 0x3FF) <<< 53) ||| (coe &&& 0x1FFFFFFFFFFFFF)⟩
      else
        some ⟨result ||| (((biasedExp >>> 8) &&& 0x3) <<< 61) ||| (3 <<< 59)
              ||| ((biasedExp &&& 0xFF) <<< 51) ||| (coe &&& 0x7FFFFFFFFFFFF)⟩
    | Kind.infinity => some ⟨result ||| 0x7800000000000000⟩
    | Kind.quiet => some ⟨result ||| 0x7C00000000000000⟩
    | Kind.signaling => some ⟨result ||| 0x7E00000000000000⟩

/-- `(*X64).unpack` (src/unnamed/part_011 lines 2243-2299).  Total: the
nil-receiver error branch cannot arise for an embedded value. -/
def X64.unpack (x : X64) : Kind × Signc × Int × Nat :=
  let bits := x.bits
  let sign := if bits &&& (1 <<< 63) ≠ 0 then Signc.negative else Signc.positive
  let g0g4 := (bits >>> 58) &&& 0x1F
  if g0g4 = 0x1E then (Kind.infinity, sign, 0, 0)
  else if g0g4 = 0x1F then
    if (bits >>> 57) &&& 0x1 = 1 then (Kind.signaling, sign, 0, 0)
    else (Kind.quiet, sign, 0, 0)
  else
    let g0g1 := (bits >>> 61) &&& 0x3
    if g0g1 = 0x3 then
      let encodedExp : Nat := (((bits >>> 61) &&& 0x3) <<< 8) ||| ((bits >>> 51) &&& 0xFF)
      (Kind.finite, sign, (encodedExp : Int) - bias64, bits &&& 0x7FFFFFFFFFFFF)
    else
      let encodedExp : Nat := (bits >>> 53) &&& 0x3FF
      (Kind.finite, sign, (encodedExp : Int) - bias64, bits &&& 0x1FFFFFFFFFFFFF)

/-- `(*X32).pack` (src/fixedpoint/x32.go lines 32-109). -/
def X32.pack (k : Kind) (sign : Signc) (exp : Int) (coe : Nat) : Option X32 :=
  if sign ≠ Signc.negative ∧ sign ≠ Signc.positive then none
  else if coe > maxCoefficient32 ∧ k = Kind.finite then none
  else if (exp > eMax32 ∨ exp < eMin32) ∧ k = Kind.finite then none
  else if k = Kind.finite ∧ exp = eMin32 ∧ coe > 0 then
    some ⟨0x7E000000 ||| (if sign = Signc.negative then 1 <<< 31 else 0)⟩
  else
    let result : Nat := if sign = Signc.negative then 1 <<< 31 else 0
    match k with
    | Kind.finite =>
      let biasedExp : Nat := (exp + bias32).toNat
      if coe < 1 <<< 20 then
        some ⟨result ||| ((biasedExp &&& 0xFF) <<< 23) ||| (coe &&& 0xFFFFF)⟩
      else
        some ⟨result ||| (((biasedExp >>> 6) &&& 0x3) <<< 29) ||| (3 <<< 27)
              ||| ((biasedExp &&& 0x3F) <<< 21) ||| (coe &&& 0x1FFFFF)⟩
    | Kind.infinity => some ⟨result ||| 0x78000000⟩
    | Kind.quiet => some ⟨result ||| 0x7C000000⟩
    | Kind.signaling => some ⟨result ||| 0x7E000000⟩

/-- `(*X32).unpack` (src/fixedpoint/x32.go lines 112-168). -/
def X32.unpack (x : X32) : Kind × Signc × Int × Nat :=
  let bits := x.bits
  let sign := if bits &&& (1 <<< 31) ≠ 0 then Signc.negative else Signc.positive
  let g0g4 := (bits >>> 26) &&& 0x1F
  if g0g4 = 0x1E then (Kind.infinity, sign, 0, 0)
  else if g0g4 = 0x1F then
    if (bits >>> 25) &&& 0x1 = 1 then (Kind.signaling, sign, 0, 0)
    else (Kind.quiet, sign, 0, 0)
  else
    let g0g1 := (bits >>> 29) &&& 0x3
    if g0g1 = 0x3 then
      let encodedExp : Nat := (((bits >>> 29) &&& 0x3) <<< 6) ||| ((bits >>> 21) &&& 0x3F)
      (Kind.finite, sign, (encodedExp : Int) - bias32, bits &&& 0x1FFFFF)
    else
      let encodedExp : Nat := (bits >>> 23) &&& 0xFF
      (Kind.finite, sign, (encodedExp : Int) - bias32, bits &&& 0xFFFFF)

/-- Base words of the three special-value encodings (the constants in the
`kind` switch of `pack`). -/
def specialBase64 : Kind → Nat
  | Kind.infinity => 0x7800000000000000
  | Kind.quiet => 0x7C00000000000000
  | _ => 0x7E00000000000000

def specialBase32 : Kind → Nat
  | Kind.infinity => 0x78000000
  | Kind.quiet => 0x7C000000
  | _ => 0x7E000000

/-! ### Rounding engine (src/fixedpoint/rounding.go) -/

/-- Loop body of `countDigits`: repeatedly divide by 10 and count.  The
Go `for n > 0` loop is embedded with explicit fuel; `fuel = n` bounds the
iteration count (each step divides by 10). -/
def countLoop (fuel n : Nat) : Nat :=
  match fuel with
  | 0 => 0
  | fuel' + 1 => if n = 0 then 0 else countLoop fuel' (n / 10) + 1

/-- `countDigits` (src/fixedpoint/rounding.go lines 143-154):
`countDigits 0 = 1`, otherwise the number of decimal digits. -/
def countDigits (n : Nat) : Nat := if n = 0 then 1 else countLoop n n

/-- The divisor loop of `Apply`: `divisor := 1; for i := 1..d { divisor *= 10 }`
on a `w`-bit unsigned integer, so each multiplication wraps mod `2^w`. -/
def divisorLoop (w : Nat) : Nat → Nat
  | 0 => 1
  | d + 1 => divisorLoop w d * 10 % 2 ^ w

/-- `Apply` (src/fixedpoint/rounding.go lines 75-140), the generic
rounding engine over a `w`-bit coefficient type (`w` = 32 or 64 for the
Go instantiations `C = uint32 | uint64`).  `exp` is passed but unused,
exactly as in the source.  The `quotient++` increments cannot wrap for
the instantiated widths (`quotient ≤ coef/10 < 2^w - 1`), so they are
written without the modulus; the divisor loop, which can wrap, carries
the explicit `% 2^w`. -/
def Apply (w : Nat) (mode : Rounding) (coef : Nat) (exp : Int) (precision : Nat)
    (sign : Signc) : Nat × Nat :=
  if coef = 0 then (0, 0)
  else
    let digits := countDigits coef
    if digits ≤ precision then (coef, 0)
    else
      let digitsToRemove := digits - precision
      if digitsToRemove = 0 then (coef, 0)
      else
        let divisor := divisorLoop w digitsToRemove
        let halfDivisor := divisor / 2
        let quotient := coef / divisor
        let remainder := coef % divisor
        match mode with
        | Rounding.tiesToEven =>
          if remainder = halfDivisor then
            if quotient % 2 = 1 then (quotient + 1, digitsToRemove)
            else (quotient, digitsToRemove)
          else if remainder > halfDivisor then (quotient + 1, digitsToRemove)
          else (quotient, digitsToRemove)
        | Rounding.tiesToAway =>
          if remainder ≥ halfDivisor then (quotient + 1, digitsToRemove)
          else (quotient, digitsToRemove)
        | Rounding.towardPositive =>
          if sign = Signc.positive ∧ remainder > 0 then (quotient + 1, digitsToRemove)
          else (quotient, digitsToRemove)
        | Rounding.towardNegative =>
          if sign = Signc.negative ∧ remainder > 0 then (quotient + 1, digitsToRemove)
          else (quotient, digitsToRemove)
        | Rounding.towardZero => (quotient, digitsToRemove)

/-- The rounding-engine contract exactly as the specification words it
(spec section 4.2): exact powers of ten, and the five tie rules.  Written
independently of `Apply` so the two can be compared. -/
def applySpec (mode : Rounding) (coef : Nat) (precision : Nat) (sign : Signc) : Nat × Nat :=
  let digits := countDigits coef
  if digits ≤ precision then (coef, 0)
  else
    let d := digits - precision
    let divisor := 10 ^ d
    let quotient := coef / divisor
    let remainder := coef % divisor
    let roundUp : Bool := match mode with
      | Rounding.tiesToEven =>
        decide (remainder > divisor / 2)
          || (decide (remainder = divisor / 2) && decide (quotient % 2 = 1))
      | Rounding.tiesToAway => decide (remainder ≥ divisor / 2)
      | Rounding.towardPositive => decide (remainder > 0) && decide (sign = Signc.positive)
      | Rounding.towardNegative => decide (remainder > 0) && decide (sign = Signc.negative)
      | Rounding.towardZero => false
    (if roundUp then quotient + 1 else quotient, d)

/-! ### Context machinery (src/unnamed/part_006) -/

/-- `Locale` (src/unnamed/part_006): decimal and thousands separator
sets.  Go strings are embedded as `List Char`. -/
structure GoLocale where
  decimals : List Char
  thousands : List Char
deriving DecidableEq, Repr

/-- `DefaultLocale` (src/unnamed/part_006). -/
def DefaultLocale : GoLocale := ⟨['.'], [',', '_']⟩

/-- `context` (src/unnamed/part_006): traps, sticky signals, precision,
rounding and locale.  `Context64` and `Context32` both embed this
record, so a single Lean structure serves both. -/
structure Ctx where
  traps : Nat
  signals : Nat
  precision : Nat
  rounding : Rounding
  locale : GoLocale
deriving DecidableEq, Repr

/-- `BasicContext64` (src/unnamed/part_006): precision
`PrecisionDefault64 = 9`, rounding `TiesToEven`, traps
`InvalidOperation | Overflow | Underflow`, clear signals. -/
def basicContext64 : Ctx :=
  { traps := SignalInvalidOperation ||| SignalOverflow ||| SignalUnderflow
    signals := 0
    precision := 9
    rounding := Rounding.tiesToEven
    locale := DefaultLocale }

/-- `BasicContext32` (src/unnamed/part_006): precision
`PrecisionDefault32 = 5`, otherwise as `basicContext64`. -/
def basicContext32 : Ctx :=
  { traps := SignalInvalidOperation ||| SignalOverflow ||| SignalUnderflow
    signals := 0
    precision := 5
    rounding := Rounding.tiesToEven
    locale := DefaultLocale }

/-- `(*Context64).HandleSignals` (src/unnamed/part_006 lines 213-223).
The method reads the receiver and writes nothing, so the embedding
returns the (unchanged) context together with the chosen value. -/
def Context64.HandleSignals (ctx : Ctx) (original fallback : X64) : Ctx × X64 :=
  if ctx.signals &&& ctx.traps ≠ 0 then (ctx, fallback) else (ctx, original)

/-- `(*Context32).HandleSignals` (src/unnamed/part_006 lines 226-236). -/
def Context32.HandleSignals (ctx : Ctx) (original fallback : X32) : Ctx × X32 :=
  if ctx.signals &&& ctx.traps ≠ 0 then (ctx, fallback) else (ctx, original)

/-- `newSpecial64` (src/unnamed/part_013 lines 53-64).  Packs a special
value; the Go function panics when `pack` errors or the kind is finite,
which cannot happen at the library's call sites (the sign is always
valid and the kind non-finite), so the panic arm is a dead default. -/
def newSpecial64 (sign : Signc) (k : Kind) : X64 :=
  match k with
  | Kind.signaling | Kind.quiet | Kind.infinity => (X64.pack k sign 0 0).getD ⟨0⟩
  | Kind.finite => ⟨0⟩

/-- `newSpecial32` (src/unnamed/part_013 lines 67-78). -/
def newSpecial32 (sign : Signc) (k : Kind) : X32 :=
  match k with
  | Kind.signaling | Kind.quiet | Kind.infinity => (X32.pack k sign 0 0).getD ⟨0⟩
  | Kind.finite => ⟨0⟩

/-- The `for exp < eMin && newCoe%10 == 0 { newCoe /= 10; exp++ }` loop
of `Round`; the fuel `(eMin - exp).toNat` is exactly the number of
steps after which the `exp < eMin` conjunct fails. -/
def shiftUpLoop : Nat → Nat → Int → Nat × Int
  | 0, coe, exp => (coe, exp)
  | fuel + 1, coe, exp =>
    if coe % 10 = 0 then shiftUpLoop fuel (coe / 10) (exp + 1) else (coe, exp)

/-- `(*X64).Round` (src/unnamed/part_011 lines 2330-2388).  The body
calls a lowercase `apply`, which does not appear among the source files;
it is modelled as the generic rounding engine `Apply` of
src/fixedpoint/rounding.go at width 64 — the function the parallel
`(*X32).Round` calls by its exported name.  `none` is a non-nil error. -/
def X64.Round (x : X64) (mode : Rounding) (prec : Nat) : Option X64 :=
  let (k, sign, exp, coe) := x.unpack
  if k ≠ Kind.finite then some x
  else
    let digits := countDigits coe
    if digits ≤ prec then some x
    else
      let (newCoe, digitsRemoved) := Apply 64 mode coe exp prec sign
      let exp2 : Int := if digitsRemoved > 0 then exp + digitsRemoved else exp
      if exp2 < eMin64 ∨ exp2 > eMax64 then
        if exp2 < eMin64 then
          let (coe3, exp3) :=
            if newCoe = 0 then (newCoe, 0)
            else if newCoe % 10 = 0 then shiftUpLoop (eMin64 - exp2).toNat newCoe exp2
            else (newCoe, exp2)
          if exp3 < eMin64 then
            if coe3 = 0 then X64.pack Kind.finite sign 0 0
            else none
          else X64.pack Kind.finite sign exp3 coe3
        else X64.pack Kind.infinity sign 0 0
      else X64.pack Kind.finite sign exp2 newCoe

/-- `(*X32).Round` (src/fixedpoint/x32.go lines 199-257). -/
def X32.Round (x : X32) (mode : Rounding) (precision : Nat) : Option X32 :=
  let (k, sign, exp, coe) := x.unpack
  if k ≠ Kind.finite then some x
  else
    let digits := countDigits coe
    if digits ≤ precision then some x
    else
      let (newCoe, digitsRemoved) := Apply 32 mode coe exp precision sign
      let exp2 : Int := if digitsRemoved > 0 then exp + digitsRemoved else exp
      if exp2 < eMin32 ∨ exp2 > eMax32 then
        if exp2 < eMin32 then
          let (coe3, exp3) :=
            if newCoe = 0 then (newCoe, 0)
            else if newCoe % 10 = 0 then shiftUpLoop (eMin32 - exp2).toNat newCoe exp2
            else (newCoe, exp2)
          if exp3 < eMin32 then
            if coe3 = 0 then X32.pack Kind.finite sign 0 0
            else none
          else X32.pack Kind.finite sign exp3 coe3
        else X32.pack Kind.infinity sign 0 0
      else X32.pack Kind.finite sign exp2 newCoe

/-- `(*Context64).Add` (src/unnamed/part_006 lines 238-307).  The
`unpack` error branches cannot arise (no nil receivers in the
embedding).  Note the exponent-alignment block updates the exponent
first, so both shift amounts are computed as zero, exactly as in the
source:
`if aexp > bexp { bexp += aexp - bexp; bcoe >>= aexp - bexp }`. -/
def Context64.Add (ctx : Ctx) (a b : X64) : Ctx × X64 :=
  let (akind, asign, aexp, acoe) := a.unpack
  if akind = Kind.signaling ∨ akind = Kind.quiet then (ctx, a)
  else
    let (bkind, bsign, bexp, bcoe) := b.unpack
    if bkind = Kind.signaling ∨ bkind = Kind.quiet then (ctx, b)
    else if akind = Kind.infinity ∨ bkind = Kind.infinity then
      if asign = bsign then (ctx, newSpecial64 asign Kind.infinity)
      else (ctx, newSpecial64 Signc.positive Kind.signaling)
    else
      let bexp1 : Int := if aexp > bexp then bexp + (aexp - bexp) else bexp
      let bcoe1 : Nat := if aexp > bexp then bcoe >>> (aexp - bexp1).toNat else bcoe
      let aexp1 : Int := if bexp1 > aexp then aexp + (bexp1 - aexp) else aexp
      let acoe1 : Nat := if bexp1 > aexp then acoe >>> (bexp1 - aexp1).toNat else acoe
      let (acoe2, asign2) :=
        if asign = bsign then (acoe1 + bcoe1, asign)
        else if acoe1 > bcoe1 then (acoe1 - bcoe1, asign)
        else (bcoe1 - acoe1, Signc.negative)
      match X64.pack Kind.finite asign2 aexp1 acoe2 with
      | none =>
        ({ ctx with signals := ctx.signals ||| SignalInvalidOperation },
          newSpecial64 Signc.positive Kind.signaling)
      | some c =>
        match c.Round ctx.rounding ctx.precision with
        | none =>
          ({ ctx with signals := ctx.signals ||| SignalInvalidOperation },
            newSpecial64 Signc.positive Kind.signaling)
        | some c2 => (ctx, c2)

/-! ### Input pipeline (src/unnamed/part_006) and quantize (src/unnamed/part_013) -/

/-- Two's-complement wrap of an `Int` to a `w`-bit signed integer, used
where a Go `int8`/`int16` conversion or subtraction can leave the
range. -/
def wrapIntW (w : Nat) (z : Int) : Int := (z + 2 ^ (w - 1)) % 2 ^ w - 2 ^ (w - 1)

/-- ASCII white space as trimmed by Go's `strings.TrimSpace` (the inputs
of interest are ASCII). -/
def isGoSpace (c : Char) : Bool :=
  c == ' ' || c == '\t' || c == '\n' || c == '\r' || c == '\x0b' || c == '\x0c'

/-- ASCII lowercasing as performed by `strings.ToLower` on ASCII input. -/
def asciiToLower (c : Char) : Char :=
  if 'A' ≤ c ∧ c ≤ 'Z' then Char.ofNat (c.toNat + 32) else c

/-- `strings.TrimSpace`. -/
def trimSpace (s : List Char) : List Char :=
  ((s.dropWhile isGoSpace).reverse.dropWhile isGoSpace).reverse

/-- `normalizeInput` (src/unnamed/part_006 lines 424-445): trim, lower,
delete spaces, replace configured decimal separators by `.`, delete
configured thousands separators. -/
def normalizeInput (input : List Char) (locale : GoLocale) : List Char :=
  let input := trimSpace input
  if input = [] then []
  else
    let input := input.map asciiToLower
    let input := input.filter (fun c => !(c == ' '))
    let input := locale.decimals.foldl
      (fun acc sep =>
        if sep ≠ '.' then acc.map (fun c => if c == sep then '.' else c) else acc)
      input
    let input := locale.thousands.foldl
      (fun acc sep => acc.filter (fun c => !(c == sep)))
      input
    input

/-- `isSpecial` (src/unnamed/part_006 lines 447-460). -/
def isSpecial (s : List Char) : Signc × Kind × Bool :=
  if s = "nan".toList ∨ s = "+nan".toList then (Signc.positive, Kind.quiet, true)
  else if s = "-nan".toList then (Signc.negative, Kind.quiet, true)
  else if s = "inf".toList ∨ s = "infinity".toList
      ∨ s = "+inf".toList ∨ s = "+infinity".toList then
    (Signc.positive, Kind.infinity, true)
  else if s = "-inf".toList ∨ s = "-infinity".toList then
    (Signc.negative, Kind.infinity, true)
  else (Signc.error, Kind.finite, false)

/-- `getDigitString[E]` (src/unnamed/part_006 lines 462-493).  `ew` is
the bit width of the Go exponent type parameter `E` (8 for `int8`, 16
for `int16`); `E(-len(fracPart))` wraps accordingly. -/
def getDigitString (ew : Nat) (s : List Char) : Signc × List Char × Int × Bool :=
  match s with
  | [] => (Signc.positive, [], 0, false)
  | c :: rest =>
    let (s_sign, s1) :=
      if c = '-' then (Signc.negative, rest)
      else if c = '+' then (Signc.positive, rest)
      else (Signc.positive, c :: rest)
    let parts := s1.splitOn '.'
    if parts.length > 2 then (Signc.positive, [], 0, false)
    else
      let intPart := parts.headD []
      let fracPart := if parts.length = 2 then parts.getD 1 [] else []
      if intPart = [] ∧ fracPart = [] then (Signc.positive, [], 0, false)
      else (s_sign, intPart ++ fracPart, wrapIntW ew (-(fracPart.length : Int)), true)

/-- `strconv.ParseUint(digits, 10, 64)`: fails on an empty string, a
non-digit character, or a value past `2^64 - 1`. -/
def parseUint64 (s : List Char) : Option Nat :=
  if s = [] then none
  else if s.all (fun c => c.isDigit) then
    let v := s.foldl (fun acc c => acc * 10 + (c.toNat - '0'.toNat)) 0
    if v < 2 ^ 64 then some v else none
  else none

/-- `parseInput[C, E]` (src/unnamed/part_006 lines 387-422).  The nil
context branch cannot arise in the embedding.  Returns
`(sign, kind, coefficient, exponent, signals)`. -/
def parseInput (ctx : Ctx) (s : List Char) (maxCoefficient : Nat) (eMax : Int)
    (ew : Nat) : Signc × Kind × Nat × Int × Nat :=
  let s := normalizeInput s ctx.locale
  if s = [] then (Signc.positive, Kind.signaling, 0, 0, SignalConversionSyntax)
  else
    let (sign, kind, special) := isSpecial s
    if special then (sign, kind, 0, 0, 0)
    else
      match getDigitString ew s with
      | (sign, digits, exp, ok) =>
        if !ok then (Signc.positive, Kind.signaling, 0, 0, SignalConversionSyntax)
        else
          match parseUint64 digits with
          | none => (Signc.positive, Kind.signaling, 0, 0, SignalConversionSyntax)
          | some value =>
            if value > maxCoefficient ∨ exp > eMax then
              (Signc.positive, Kind.signaling, 0, 0, SignalOverflow)
            else (sign, kind, value, exp, 0)

/-- `(*Context64).Parse` (src/unnamed/part_006 lines 112-138).  The Go
nil-receiver substitution of `BasicContext64()` cannot arise in the
embedding, which always receives a context value. -/
def Context64.Parse (ctx : Ctx) (s : List Char) : Ctx × X64 :=
  match parseInput ctx s maxCoefficient64 eMax64 16 with
  | (sign, kind, coe, exp, signals) =>
    let ctx1 := { ctx with signals := ctx.signals ||| signals }
    if kind ≠ Kind.finite then (ctx1, newSpecial64 sign kind)
    else
      match X64.pack Kind.finite sign exp coe with
      | none =>
        ({ ctx1 with signals := ctx1.signals ||| SignalConversionSyntax },
          newSpecial64 Signc.positive Kind.signaling)
      | some a =>
        match a.Round ctx1.rounding ctx1.precision with
        | none =>
          ({ ctx1 with signals := ctx1.signals ||| SignalInvalidOperation },
            newSpecial64 Signc.positive Kind.signaling)
        | some a2 => (ctx1, a2)

/-- `(*Context32).Parse` (src/unnamed/part_006 lines 140-169). -/
def Context32.Parse (ctx : Ctx) (s : List Char) : Ctx × X32 :=
  match parseInput ctx s maxCoefficient32 eMax32 8 with
  | (sign, kind, coe, exp, signals) =>
    let ctx1 := { ctx with signals := ctx.signals ||| signals }
    if kind ≠ Kind.finite then (ctx1, newSpecial32 sign kind)
    else
      match X32.pack Kind.finite sign exp coe with
      | none =>
        ({ ctx1 with signals := ctx1.signals ||| SignalConversionSyntax },
          newSpecial32 Signc.positive Kind.signaling)
      | some a =>
        match a.Round ctx1.rounding ctx1.precision with
        | none =>
          ({ ctx1 with signals := ctx1.signals ||| SignalInvalidOperation },
            newSpecial32 Signc.positive Kind.signaling)
        | some a2 => (ctx1, a2)

/-- `pow10` (src/unnamed/part_013 lines 221-237): the `pow10Lookup`
table holds `10^n` for `n ≤ 19`; beyond the table bound for the width
(9 for `uint32`, 19 for `uint64`) the Go function returns 0. -/
def pow10 (maxIndex : Nat) (n : Nat) : Nat := if n ≤ maxIndex then 10 ^ n else 0

/-- `quantize64` (src/unnamed/part_013 lines 82-137).  The outer
`Option` is the run-time behaviour: `none` models the Go panic
(integer division by zero) that occurs when `pow10` falls off its
table and returns 0; `some (value, signal)` is a normal return.  The
`shift` subtraction is on `int16` and wraps. -/
def quantize64 (x : X64) (expTarget : Int) (mode : Rounding) : Option (X64 × Nat) :=
  let (k, sign, exp, coe) := x.unpack
  if k ≠ Kind.finite then some (x, SignalInvalidOperation)
  else
    let shift := wrapIntW 16 (expTarget - exp)
    if shift = 0 then some (x, 0)
    else
      if shift < 0 then
        let multiplier := pow10 19 (-shift).toNat
        if multiplier = 0 then none
        else if coe > maxCoefficient64 / multiplier then some (⟨0⟩, SignalOverflow)
        else
          match X64.pack k sign expTarget (coe * multiplier) with
          | none => some (⟨0⟩, SignalInvalidOperation)
          | some r => some (r, 0)
      else
        let divisor := pow10 19 shift.toNat
        if divisor = 0 then none
        else
          let quotient := coe / divisor
          let remainder := coe % divisor
          let halfDivisor := divisor / 2
          let q2 := match mode with
            | Rounding.tiesToEven =>
              if remainder > halfDivisor ∨ (remainder = halfDivisor ∧ quotient &&& 1 = 1)
              then quotient + 1 else quotient
            | Rounding.tiesToAway =>
              if remainder ≥ halfDivisor then quotient + 1 else quotient
            | Rounding.towardPositive =>
              if remainder > 0 ∧ sign = Signc.positive then quotient + 1 else quotient
            | Rounding.towardNegative =>
              if remainder > 0 ∧ sign = Signc.negative then quotient + 1 else quotient
            | Rounding.towardZero => quotient
          match X64.pack k sign expTarget q2 with
          | none => some (⟨0⟩, SignalInvalidOperation)
          | some r => some (r, 0)

/-- The quotient bump of spec section 4.4/4.2, written from the spec's
words: divide by the exact power of ten and round the quotient by the
mode's tie rules. -/
def bumpSpec (mode : Rounding) (sign : Signc) (coe divisor : Nat) : Nat :=
  let quotient := coe / divisor
  let remainder := coe % divisor
  let roundUp : Bool := match mode with
    | Rounding.tiesToEven =>
      decide (remainder > divisor / 2)
        || (decide (remainder = divisor / 2) && decide (quotient % 2 = 1))
    | Rounding.tiesToAway => decide (remainder ≥ divisor / 2)
    | Rounding.towardPositive => decide (remainder > 0) && decide (sign = Signc.positive)
    | Rounding.towardNegative => decide (remainder > 0) && decide (sign = Signc.negative)
    | Rounding.towardZero => false
  if roundUp then quotient + 1 else quotient

/-! ### Bit-level helper lemmas

Conversions between the Go bitwise operators on `Nat` and plain
division/remainder arithmetic, used to reason about the codec. -/

lemma andMask1 (x : Nat) : x &&& 1 = x % 2 := Nat.and_one_is_mod x

lemma andMask3 (x : Nat) : x &&& 3 = x % 4 := by
  have h := Nat.and_pow_two_sub_one_eq_mod x 2
  norm_num at h
  exact h

lemma andMask31 (x : Nat) : x &&& 31 = x % 32 := by
  have h := Nat.and_pow_two_sub_one_eq_mod x 5
  norm_num at h
  exact h

lemma andMask63 (x : Nat) : x &&& 63 = x % 64 := by
  have h := Nat.and_pow_two_sub_one_eq_mod x 6
  norm_num at h
  exact h

lemma andMask255 (x : Nat) : x &&& 255 = x % 256 := by
  have h := Nat.and_pow_two_sub_one_eq_mod x 8
  norm_num at h
  exact h

lemma andMask1023 (x : Nat) : x &&& 1023 = x % 1024 := by
  have h := Nat.and_pow_two_sub_one_eq_mod x 10
  norm_num at h
  exact h

lemma andMask20 (x : Nat) : x &&& 1048575 = x % 1048576 := by
  have h := Nat.and_pow_two_sub_one_eq_mod x 20
  norm_num at h
  exact h

lemma andMask53 (x : Nat) : x &&& 9007199254740991 = x % 9007199254740992 := by
  have h := Nat.and_pow_two_sub_one_eq_mod x 53
  norm_num at h
  exact h

lemma andBit63 (x : Nat) :
    x &&& 9223372036854775808 = x / 9223372036854775808 % 2 * 9223372036854775808 := by
  have h2 : (9223372036854775808 : Nat) = 2 ^ 63 := by norm_num
  rw [h2, Nat.and_two_pow, Nat.testBit_to_div_mod]
  rcases Nat.mod_two_eq_zero_or_one (x / 2 ^ 63) with h | h <;> rw [h] <;> simp

lemma andBit31 (x : Nat) :
    x &&& 2147483648 = x / 2147483648 % 2 * 2147483648 := by
  have h2 : (2147483648 : Nat) = 2 ^ 31 := by norm_num
  rw [h2, Nat.and_two_pow, Nat.testBit_to_div_mod]
  rcases Nat.mod_two_eq_zero_or_one (x / 2 ^ 31) with h | h <;> rw [h] <;> simp

lemma shr (x n : Nat) : x >>> n = x / 2 ^ n := Nat.shiftRight_eq_div_pow x n

lemma orFields64 (s B c : Nat) (hB : B < 1024) (hc : c < 9007199254740992) :
    ((s * 9223372036854775808) ||| (B <<< 53)) ||| c
      = s * 9223372036854775808 + B * 9007199254740992 + c := by
  have h63 : (2 : Nat) ^ 63 = 9223372036854775808 := by norm_num
  have h53 : (2 : Nat) ^ 53 = 9007199254740992 := by norm_num
  have hB53 : B <<< 53 = 9007199254740992 * B := by
    rw [Nat.shiftLeft_eq, h53]; ring
  have h1 : (s * 9223372036854775808) ||| (B <<< 53)
      = s * 9223372036854775808 + B * 9007199254740992 := by
    rw [hB53]
    have hlt : 9007199254740992 * B < 2 ^ 63 := by rw [h63]; omega
    have e : s * 9223372036854775808 = 2 ^ 63 * s := by rw [h63]; ring
    rw [e, ← Nat.mul_add_lt_is_or hlt s]
    ring
  rw [h1]
  have hc53 : c < 2 ^ 53 := by rw [h53]; omega
  have h2 : s * 9223372036854775808 + B * 9007199254740992
      = 2 ^ 53 * (s * 1024 + B) := by rw [h53]; ring
  rw [h2, ← Nat.mul_add_lt_is_or hc53 (s * 1024 + B)]

lemma orFields32 (s B c : Nat) (hB : B < 256) (hc : c < 8388608) :
    ((s * 2147483648) ||| (B <<< 23)) ||| c
      = s * 2147483648 + B * 8388608 + c := by
  have h31 : (2 : Nat) ^ 31 = 2147483648 := by norm_num
  have h23 : (2 : Nat) ^ 23 = 8388608 := by norm_num
  have hB23 : B <<< 23 = 8388608 * B := by
    rw [Nat.shiftLeft_eq, h23]; ring
  have h1 : (s * 2147483648) ||| (B <<< 23)
      = s * 2147483648 + B * 8388608 := by
    rw [hB23]
    have hlt : 8388608 * B < 2 ^ 31 := by rw [h31]; omega
    have e : s * 2147483648 = 2 ^ 31 * s := by rw [h31]; ring
    rw [e, ← Nat.mul_add_lt_is_or hlt s]
    ring
  rw [h1]
  have hc23 : c < 2 ^ 23 := by rw [h23]; omega
  have h2 : s * 2147483648 + B * 8388608 = 2 ^ 23 * (s * 256 + B) := by
    rw [h23]; ring
  rw [h2, ← Nat.mul_add_lt_is_or hc23 (s * 256 + B)]

/-! ### Codec round-trip lemmas (small form, moderate exponent) -/

theorem unpack64_small (s B c : Nat) (hs : s ≤ 1) (hB : B < 768) (hc : c < 9007199254740992) :
    X64.unpack ⟨s * 9223372036854775808 + B * 9007199254740992 + c⟩ =
      (Kind.finite, if s = 1 then Signc.negative else Signc.positive, (B : Int) - bias64, c) := by
  have hone : (1 <<< 63 : Nat) = 9223372036854775808 := by norm_num [Nat.shiftLeft_eq]
  set bits := s * 9223372036854775808 + B * 9007199254740992 + c with hbits
  have h58 : (bits >>> 58) &&& 0x1F = bits / 288230376151711744 % 32 := by
    rw [shr, andMask31]; norm_num
  have h61 : (bits >>> 61) &&& 0x3 = bits / 2305843009213693952 % 4 := by
    rw [shr, andMask3]; norm_num
  have h53 : (bits >>> 53) &&& 0x3FF = bits / 9007199254740992 % 1024 := by
    rw [shr, andMask1023]; norm_num
  have hcond1 : ¬((bits >>> 58) &&& 0x1F = 0x1E) := by rw [h58]; omega
  have hcond2 : ¬((bits >>> 58) &&& 0x1F = 0x1F) := by rw [h58]; omega
  have hcond3 : ¬((bits >>> 61) &&& 0x3 = 0x3) := by rw [h61]; omega
  have hval : (bits >>> 53) &&& 0x3FF = B := by rw [h53]; omega
  have hcoe : bits &&& 0x1FFFFFFFFFFFFF = c := by
    have e : (0x1FFFFFFFFFFFFF : Nat) = 9007199254740991 := by norm_num
    rw [e, andMask53]; omega
  have hsign : (bits &&& (1 <<< 63) ≠ 0) ↔ (s = 1) := by
    rw [hone, andBit63]
    have hd : bits / 9223372036854775808 % 2 = s := by omega
    rw [hd]
    rcases Nat.le_one_iff_eq_zero_or_eq_one.mp hs with h | h <;> subst h <;> simp
  simp only [X64.unpack]
  rw [if_neg hcond1, if_neg hcond2, if_neg hcond3, hval, hcoe]
  simp only [hsign]

theorem unpack32_small (s B c : Nat) (hs : s ≤ 1) (hB : B < 192) (hc : c < 1048576) :
    X32.unpack ⟨s * 2147483648 + B * 8388608 + c⟩ =
      (Kind.finite, if s = 1 then Signc.negative else Signc.positive, (B : Int) - bias32, c) := by
  have hone : (1 <<< 31 : Nat) = 2147483648 := by norm_num [Nat.shiftLeft_eq]
  set bits := s * 2147483648 + B * 8388608 + c with hbits
  have h26 : (bits >>> 26) &&& 0x1F = bits / 67108864 % 32 := by
    rw [shr, andMask31]; norm_num
  have h29 : (bits >>> 29) &&& 0x3 = bits / 536870912 % 4 := by
    rw [shr, andMask3]; norm_num
  have h23 : (bits >>> 23) &&& 0xFF = bits / 8388608 % 256 := by
    rw [shr, andMask255]; norm_num
  have hcond1 : ¬((bits >>> 26) &&& 0x1F = 0x1E) := by rw [h26]; omega
  have hcond2 : ¬((bits >>> 26) &&& 0x1F = 0x1F) := by rw [h26]; omega
  have hcond3 : ¬((bits >>> 29) &&& 0x3 = 0x3) := by rw [h29]; omega
  have hval : (bits >>> 23) &&& 0xFF = B := by rw [h23]; omega
  have hcoe : bits &&& 0xFFFFF = c := by
    have e : (0xFFFFF : Nat) = 1048575 := by norm_num
    rw [e, andMask20]; omega
  have hsign : (bits &&& (1 <<< 31) ≠ 0) ↔ (s = 1) := by
    rw [hone, andBit31]
    have hd : bits / 2147483648 % 2 = s := by omega
    rw [hd]
    rcases Nat.le_one_iff_eq_zero_or_eq_one.mp hs with h | h <;> subst h <;> simp
  simp only [X32.unpack]
  rw [if_neg hcond1, if_neg hcond2, if_neg hcond3, hval, hcoe]
  simp only [hsign]

theorem pack64_finite_small (sign : Signc) (exp : Int) (coe : Nat)
    (hsign : sign = Signc.negative ∨ sign = Signc.positive)
    (hcoe : coe ≤ maxCoefficient64) (hlow : eMin64 ≤ exp) (hhigh : exp ≤ eMax64)
    (hsmall : coe < 9007199254740992) (hsub : ¬(exp = eMin64 ∧ 0 < coe)) :
    X64.pack Kind.finite sign exp coe =
      some ⟨(if sign = Signc.negative then 1 else 0) * 9223372036854775808
            + (exp + bias64).toNat * 9007199254740992 + coe⟩ := by
  have hlow2 : (-383 : Int) ≤ exp := hlow
  have hhigh2 : exp ≤ 384 := hhigh
  unfold X64.pack
  simp only [maxCoefficient64, eMax64, eMin64, bias64] at hcoe hsub ⊢
  rw [if_neg (by rcases hsign with h | h <;> simp [h])]
  rw [if_neg (by simp only [not_and]; intro h; omega)]
  rw [if_neg (by simp only [not_and]; intro h; omega)]
  rw [if_neg (by
    simp only [not_and]
    intro _ h2 h3
    exact hsub ⟨h2, h3⟩)]
  rw [if_pos (by
    have e : (1 <<< 53 : Nat) = 9007199254740992 := by norm_num [Nat.shiftLeft_eq]
    rw [e]; omega)]
  have hBlt : (exp + 398).toNat < 1024 := by omega
  have hmask1 : (exp + 398).toNat &&& 1023 = (exp + 398).toNat := by
    rw [andMask1023]; omega
  have hmask2 : coe &&& 9007199254740991 = coe := by
    rw [andMask53]; omega
  rw [hmask1, hmask2]
  rcases hsign with h | h <;> subst h
  · rw [if_pos rfl, if_pos rfl]
    congr 1
    have e1 : (1 <<< 63 : Nat) = 1 * 9223372036854775808 := by norm_num [Nat.shiftLeft_eq]
    rw [e1]
    exact congrArg X64.mk (orFields64 1 _ coe hBlt hsmall)
  · rw [if_neg (by simp), if_neg (by simp)]
    congr 1
    have e0 := congrArg X64.mk (orFields64 0 ((exp + 398).toNat) coe hBlt hsmall)
    simpa using e0

theorem pack32_finite_small (sign : Signc) (exp : Int) (coe : Nat)
    (hsign : sign = Signc.negative ∨ sign = Signc.positive)
    (hcoe : coe ≤ maxCoefficient32) (hlow : eMin32 ≤ exp) (hhigh : exp ≤ eMax32)
    (hsmall : coe < 1048576) (hsub : ¬(exp = eMin32 ∧ 0 < coe)) :
    X32.pack Kind.finite sign exp coe =
      some ⟨(if sign = Signc.negative then 1 else 0) * 2147483648
            + (exp + bias32).toNat * 8388608 + coe⟩ := by
  have hlow2 : (-95 : Int) ≤ exp := hlow
  have hhigh2 : exp ≤ 96 := hhigh
  unfold X32.pack
  simp only [maxCoefficient32, eMax32, eMin32, bias32] at hcoe hsub ⊢
  rw [if_neg (by rcases hsign with h | h <;> simp [h])]
  rw [if_neg (by simp only [not_and]; intro h; omega)]
  rw [if_neg (by simp only [not_and]; intro h; omega)]
  rw [if_neg (by
    simp only [not_and]
    intro _ h2 h3
    exact hsub ⟨h2, h3⟩)]
  rw [if_pos (by
    have e : (1 <<< 20 : Nat) = 1048576 := by norm_num [Nat.shiftLeft_eq]
    rw [e]; omega)]
  have hBlt : (exp + 101).toNat < 256 := by omega
  have hmask1 : (exp + 101).toNat &&& 255 = (exp + 101).toNat := by
    rw [andMask255]; omega
  have hmask2 : coe &&& 1048575 = coe := by
    rw [andMask20]; omega
  have emask : (0xFF : Nat) = 255 := by norm_num
  have emask2 : (0xFFFFF : Nat) = 1048575 := by norm_num
  rw [emask, emask2, hmask1, hmask2]
  rcases hsign with h | h <;> subst h
  · rw [if_pos rfl, if_pos rfl]
    congr 1
    have e1 : (1 <<< 31 : Nat) = 1 * 2147483648 := by norm_num [Nat.shiftLeft_eq]
    rw [e1]
    have hc8 : coe < 8388608 := by omega
    exact congrArg X32.mk (orFields32 1 _ coe hBlt hc8)
  · rw [if_neg (by simp), if_neg (by simp)]
    congr 1
    have hc8 : coe < 8388608 := by omega
    have e0 := congrArg X32.mk (orFields32 0 ((exp + 101).toNat) coe hBlt hc8)
    simpa using e0

lemma pack64_special (k : Kind) (sign : Signc) (exp : Int) (coe : Nat)
    (hk : k ≠ Kind.finite) (hsign : sign = Signc.negative ∨ sign = Signc.positive) :
    X64.pack k sign exp coe =
      some ⟨(if sign = Signc.negative then 1 <<< 63 else 0) ||| specialBase64 k⟩ := by
  unfold X64.pack
  rw [if_neg (by rcases hsign with h | h <;> simp [h])]
  rw [if_neg (by simp [hk])]
  rw [if_neg (by simp [hk])]
  rw [if_neg (by simp [hk])]
  cases k with
  | finite => exact absurd rfl hk
  | infinity => rfl
  | quiet => rfl
  | signaling => rfl

lemma pack32_special (k : Kind) (sign : Signc) (exp : Int) (coe : Nat)
    (hk : k ≠ Kind.finite) (hsign : sign = Signc.negative ∨ sign = Signc.positive) :
    X32.pack k sign exp coe =
      some ⟨(if sign = Signc.negative then 1 <<< 31 else 0) ||| specialBase32 k⟩ := by
  unfold X32.pack
  rw [if_neg (by rcases hsign with h | h <;> simp [h])]
  rw [if_neg (by simp [hk])]
  rw [if_neg (by simp [hk])]
  rw [if_neg (by simp [hk])]
  cases k with
  | finite => exact absurd rfl hk
  | infinity => rfl
  | quiet => rfl
  | signaling => rfl

lemma unpack64_special (k : Kind) (sign : Signc)
    (hk : k ≠ Kind.finite) (hsign : sign = Signc.negative ∨ sign = Signc.positive) :
    X64.unpack ⟨(if sign = Signc.negative then 1 <<< 63 else 0) ||| specialBase64 k⟩
      = (k, sign, 0, 0) := by
  rcases hsign with h | h <;> subst h <;> cases k <;>
    first
      | exact absurd rfl hk
      | decide

lemma unpack32_special (k : Kind) (sign : Signc)
    (hk : k ≠ Kind.finite) (hsign : sign = Signc.negative ∨ sign = Signc.positive) :
    X32.unpack ⟨(if sign = Signc.negative then 1 <<< 31 else 0) ||| specialBase32 k⟩
      = (k, sign, 0, 0) := by
  rcases hsign with h | h <;> subst h <;> cases k <;>
    first
      | exact absurd rfl hk
      | decide

/-- C1 (amended).  Round-trip of `pack` then `unpack`, for both formats.
For non-finite kinds the exponent and the coefficient both come back as 0;
for the finite kind the exact tuple comes back provided the value avoids
the three encoder/decoder mismatches exhibited in `c1_counterexample`:
the coefficient must fit the small form (`< 2^53`, resp. `< 2^20`), the
exponent must stay below 370 (resp. 91, keeping the biased exponent out
of the `11`-prefixed range the decoder reserves for the large form), and
the minimum exponent with a non-zero coefficient (the subnormal hack of
C9) is excluded. -/
theorem c1_pack_unpack_roundtrip :
    (∀ (k : Kind) (sign : Signc) (exp : Int) (coe : Nat),
      (sign = Signc.negative ∨ sign = Signc.positive) →
      (k = Kind.finite →
        coe ≤ maxCoefficient64 ∧ eMin64 ≤ exp ∧ exp ≤ eMax64 ∧
        coe < 2 ^ 53 ∧ exp < 370 ∧ ¬(exp = eMin64 ∧ 0 < coe)) →
      ∃ v, X64.pack k sign exp coe = some v ∧
        X64.unpack v = (k, sign,
          if k = Kind.finite then exp else 0,
          if k = Kind.finite then coe else 0)) ∧
    (∀ (k : Kind) (sign : Signc) (exp : Int) (coe : Nat),
      (sign = Signc.negative ∨ sign = Signc.positive) →
      (k = Kind.finite →
        coe ≤ maxCoefficient32 ∧ eMin32 ≤ exp ∧ exp ≤ eMax32 ∧
        coe < 2 ^ 20 ∧ exp < 91 ∧ ¬(exp = eMin32 ∧ 0 < coe)) →
      ∃ v, X32.pack k sign exp coe = some v ∧
        X32.unpack v = (k, sign,
          if k = Kind.finite then exp else 0,
          if k = Kind.finite then coe else 0)) := by
  constructor
  · intro k sign exp coe hsign hfin
    by_cases hk : k = Kind.finite
    · subst hk
      obtain ⟨h1, h2, h3, h4, h5, h6⟩ := hfin rfl
      have h53 : coe < 9007199254740992 := by norm_num at h4; exact h4
      rw [pack64_finite_small sign exp coe hsign h1 h2 h3 h53 h6]
      refine ⟨_, rfl, ?_⟩
      have hs : (if sign = Signc.negative then 1 else 0) ≤ 1 := by
        split <;> norm_num
      have h2l : (-383 : Int) ≤ exp := h2
      have hB : (exp + bias64).toNat < 768 := by
        have e : (exp + bias64) = exp + 398 := rfl
        rw [e]
        omega
      rw [unpack64_small _ _ _ hs hB h53]
      have hexp : (((exp + bias64).toNat : Int)) - bias64 = exp := by
        have e : bias64 = (398 : Int) := rfl
        rw [e]
        omega
      rw [hexp]
      rcases hsign with h | h <;> subst h <;> simp
    · rw [pack64_special _ _ exp coe hk hsign]
      refine ⟨_, rfl, ?_⟩
      rw [if_neg hk, if_neg hk]
      exact unpack64_special k sign hk hsign
  · intro k sign exp coe hsign hfin
    by_cases hk : k = Kind.finite
    · subst hk
      obtain ⟨h1, h2, h3, h4, h5, h6⟩ := hfin rfl
      have h20 : coe < 1048576 := by norm_num at h4; exact h4
      rw [pack32_finite_small sign exp coe hsign h1 h2 h3 h20 h6]
      refine ⟨_, rfl, ?_⟩
      have hs : (if sign = Signc.negative then 1 else 0) ≤ 1 := by
        split <;> norm_num
      have h2l : (-95 : Int) ≤ exp := h2
      have hB : (exp + bias32).toNat < 192 := by
        have e : (exp + bias32) = exp + 101 := rfl
        rw [e]
        omega
      rw [unpack32_small _ _ _ hs hB h20]
      have hexp : (((exp + bias32).toNat : Int)) - bias32 = exp := by
        have e : bias32 = (101 : Int) := rfl
        rw [e]
        omega
      rw [hexp]
      rcases hsign with h | h <;> subst h <;> simp
    · rw [pack32_special _ _ exp coe hk hsign]
      refine ⟨_, rfl, ?_⟩
      rw [if_neg hk, if_neg hk]
      exact unpack32_special k sign hk hsign

/-- C1 (counterexample to the claim as stated).  Tuples that `pack`
accepts without error and whose unpacking does not return the claimed
tuple: the subnormal hack turns a finite tuple into a signaling NaN; a
small-form value with exponent 384 decodes through the large-coefficient
path as exponent 426; a large-form coefficient (`2^53`) is truncated and
misdecoded; a quiet-NaN coefficient payload is zeroed rather than kept. -/
theorem c1_counterexample :
    ((X64.pack Kind.finite Signc.positive eMin64 1).map X64.unpack
        = some (Kind.signaling, Signc.positive, 0, 0))
    ∧ ((X64.pack Kind.finite Signc.positive 384 1).map X64.unpack
        = some (Kind.finite, Signc.positive, 426, 1))
    ∧ ((X64.pack Kind.finite Signc.positive 0 9007199254740992).map X64.unpack
        ≠ some (Kind.finite, Signc.positive, 0, 9007199254740992))
    ∧ ((X64.pack Kind.quiet Signc.positive 0 5).map X64.unpack
        = some (Kind.quiet, Signc.positive, 0, 0))
    ∧ ((X32.pack Kind.finite Signc.positive eMin32 1).map X32.unpack
        = some (Kind.signaling, Signc.positive, 0, 0)) := by
  refine ⟨by decide, by decide, by decide, by decide, by decide⟩

/-- C1 witness: the amended round-trip applied at concrete inputs. -/
theorem c1_witness :
    (∃ v, X64.pack Kind.finite Signc.positive (-2) 12345 = some v ∧
      X64.unpack v = (Kind.finite, Signc.positive, -2, 12345)) ∧
    (∃ v, X32.pack Kind.finite Signc.negative 0 123 = some v ∧
      X32.unpack v = (Kind.finite, Signc.negative, 0, 123)) := by
  constructor
  · have h := c1_pack_unpack_roundtrip.1 Kind.finite Signc.positive (-2) 12345
      (Or.inr rfl)
      (fun _ => ⟨by norm_num [maxCoefficient64], by norm_num [eMin64],
        by norm_num [eMax64], by norm_num, by norm_num, by norm_num [eMin64]⟩)
    simpa using h
  · have h := c1_pack_unpack_roundtrip.2 Kind.finite Signc.negative 0 123
      (Or.inl rfl)
      (fun _ => ⟨by norm_num [maxCoefficient32], by norm_num [eMin32],
        by norm_num [eMax32], by norm_num, by norm_num, by norm_num [eMin32]⟩)
    simpa using h

/-- C9 (confirmed).  Packing a finite tuple at the format's minimum
exponent with a non-zero coefficient (within the coefficient range the
pack validation accepts) returns no error, yet stores the signaling-NaN
bit pattern: unpacking gives `(signaling, sign, 0, 0)`.  Nothing in the
return value reports the substitution.  Both formats. -/
theorem c9_min_exponent_pack_gives_snan :
    (∀ (sign : Signc) (coe : Nat),
      (sign = Signc.negative ∨ sign = Signc.positive) →
      0 < coe → coe ≤ maxCoefficient64 →
      ∃ v, X64.pack Kind.finite sign eMin64 coe = some v ∧
        X64.unpack v = (Kind.signaling, sign, 0, 0)) ∧
    (∀ (sign : Signc) (coe : Nat),
      (sign = Signc.negative ∨ sign = Signc.positive) →
      0 < coe → coe ≤ maxCoefficient32 →
      ∃ v, X32.pack Kind.finite sign eMin32 coe = some v ∧
        X32.unpack v = (Kind.signaling, sign, 0, 0)) := by
  constructor
  · intro sign coe hsign hpos hcoe
    have hcoe2 : coe ≤ 9999999999999999 := hcoe
    unfold X64.pack
    rw [if_neg (by rcases hsign with h | h <;> simp [h])]
    rw [if_neg (by simp only [maxCoefficient64, not_and]; intro h; omega)]
    rw [if_neg (by simp only [eMax64, eMin64, not_and]; intro h; cases h with
      | inl h => exact absurd h (by norm_num [eMin64])
      | inr h => exact absurd h (by norm_num [eMin64]))]
    rw [if_pos ⟨rfl, rfl, hpos⟩]
    refine ⟨_, rfl, ?_⟩
    rcases hsign with h | h <;> subst h <;> decide
  · intro sign coe hsign hpos hcoe
    have hcoe2 : coe ≤ 9999999 := hcoe
    unfold X32.pack
    rw [if_neg (by rcases hsign with h | h <;> simp [h])]
    rw [if_neg (by simp only [maxCoefficient32, not_and]; intro h; omega)]
    rw [if_neg (by simp only [eMax32, eMin32, not_and]; intro h; cases h with
      | inl h => exact absurd h (by norm_num [eMin32])
      | inr h => exact absurd h (by norm_num [eMin32]))]
    rw [if_pos ⟨rfl, rfl, hpos⟩]
    refine ⟨_, rfl, ?_⟩
    rcases hsign with h | h <;> subst h <;> decide

/-- C9 witness: the silent substitution at concrete inputs. -/
theorem c9_witness :
    (∃ v, X64.pack Kind.finite Signc.positive eMin64 1 = some v ∧
      X64.unpack v = (Kind.signaling, Signc.positive, 0, 0)) ∧
    (∃ v, X32.pack Kind.finite Signc.negative eMin32 9999999 = some v ∧
      X32.unpack v = (Kind.signaling, Signc.negative, 0, 0)) :=
  ⟨c9_min_exponent_pack_gives_snan.1 Signc.positive 1 (Or.inr rfl)
      (by norm_num) (by norm_num [maxCoefficient64]),
    c9_min_exponent_pack_gives_snan.2 Signc.negative 9999999 (Or.inl rfl)
      (by norm_num) (by norm_num [maxCoefficient32])⟩

lemma divisorLoop_eq_pow (w d : Nat) (h : 10 ^ d < 2 ^ w) :
    divisorLoop w d = 10 ^ d := by
  induction d with
  | zero => rfl
  | succ d ih =>
    have hd : 10 ^ d < 2 ^ w :=
      lt_trans (by have := Nat.pow_lt_pow_succ (by norm_num : 1 < 10) (n := d); omega) h
    rw [divisorLoop, ih hd, ← pow_succ]
    exact Nat.mod_eq_of_lt h

lemma apply_eq_applySpec (w : Nat) (mode : Rounding) (coef : Nat) (exp : Int)
    (precision : Nat) (sign : Signc) (h0 : coef ≠ 0)
    (hpow : 10 ^ (countDigits coef - precision) < 2 ^ w) :
    Apply w mode coef exp precision sign = applySpec mode coef precision sign := by
  unfold Apply applySpec
  rw [if_neg h0]
  by_cases hle : countDigits coef ≤ precision
  · rw [if_pos hle, if_pos hle]
  · rw [if_neg hle, if_neg hle]
    have hd0 : ¬(countDigits coef - precision = 0) := by omega
    rw [if_neg hd0]
    rw [divisorLoop_eq_pow w _ hpow]
    cases mode with
    | tiesToEven =>
      by_cases he : coef % 10 ^ (countDigits coef - precision)
          = 10 ^ (countDigits coef - precision) / 2
      · by_cases ho : coef / 10 ^ (countDigits coef - precision) % 2 = 1 <;>
          simp [he, ho]
      · by_cases hg : coef % 10 ^ (countDigits coef - precision)
            > 10 ^ (countDigits coef - precision) / 2 <;>
          simp [he, hg]
    | tiesToAway =>
      by_cases hg : coef % 10 ^ (countDigits coef - precision)
          ≥ 10 ^ (countDigits coef - precision) / 2 <;>
        simp [hg]
    | towardPositive =>
      by_cases hp : sign = Signc.positive <;>
        by_cases hr : coef % 10 ^ (countDigits coef - precision) > 0 <;>
          simp [hp, hr]
    | towardNegative =>
      by_cases hp : sign = Signc.negative <;>
        by_cases hr : coef % 10 ^ (countDigits coef - precision) > 0 <;>
          simp [hp, hr]
    | towardZero => simp

/-- C5 (amended).  For a non-zero coefficient, whenever the number of
digits to remove is at most 19 (64-bit engine) or 9 (32-bit engine) —
which holds in particular for every target precision of at least 1 —
`Apply` computes exactly the spec's contract `applySpec`: `(coef, 0)`
when the digit count is within the precision, otherwise quotient and
remainder by the exact power `10^d` with the five tie rules.  The three
concrete scenarios of the claim evaluate as stated. -/
theorem c5_apply_follows_spec :
    (∀ (mode : Rounding) (coef : Nat) (exp : Int) (precision : Nat) (sign : Signc),
      coef < 2 ^ 64 → coef ≠ 0 → countDigits coef - precision ≤ 19 →
      Apply 64 mode coef exp precision sign = applySpec mode coef precision sign) ∧
    (∀ (mode : Rounding) (coef : Nat) (exp : Int) (precision : Nat) (sign : Signc),
      coef < 2 ^ 32 → coef ≠ 0 → countDigits coef - precision ≤ 9 →
      Apply 32 mode coef exp precision sign = applySpec mode coef precision sign) ∧
    Apply 64 Rounding.tiesToEven 12345 0 4 Signc.positive = (1234, 1) ∧
    Apply 64 Rounding.tiesToEven 12350 0 4 Signc.positive = (1235, 1) ∧
    Apply 64 Rounding.tiesToEven 12450 0 4 Signc.positive = (1245, 1) := by
  refine ⟨?_, ?_, by decide, by decide, by decide⟩
  · intro mode coef exp precision sign _ h0 hd
    refine apply_eq_applySpec 64 mode coef exp precision sign h0 ?_
    calc 10 ^ (countDigits coef - precision) ≤ 10 ^ 19 :=
          Nat.pow_le_pow_right (by norm_num) hd
      _ < 2 ^ 64 := by norm_num
  · intro mode coef exp precision sign _ h0 hd
    refine apply_eq_applySpec 32 mode coef exp precision sign h0 ?_
    calc 10 ^ (countDigits coef - precision) ≤ 10 ^ 9 :=
          Nat.pow_le_pow_right (by norm_num) hd
      _ < 2 ^ 32 := by norm_num

/-- C5 (counterexample to the claim as stated).  Two corner cases where
`Apply` does not follow the claimed formula: a zero coefficient with
precision 0 short-circuits to `(0, 0)` although `digit_count 0 = 1 > 0`
asks for one removed digit; and removing 20 digits from a 20-digit
coefficient makes the divisor loop wrap modulo `2^64` (the divisor
becomes `10^20 mod 2^64`), so `Apply` returns `(1, 20)` where the
claimed exact division by `10^20` yields `(0, 20)`. -/
theorem c5_counterexample :
    Apply 64 Rounding.tiesToEven 0 0 0 Signc.positive = (0, 0) ∧
    applySpec Rounding.tiesToEven 0 0 Signc.positive = (0, 1) ∧
    Apply 64 Rounding.tiesToEven 10000000000000000000 0 0 Signc.positive = (1, 20) ∧
    applySpec Rounding.tiesToEven 10000000000000000000 0 Signc.positive = (0, 20) := by
  refine ⟨by decide, by decide, by decide, by decide⟩

/-- C5 witness: the amended equation applied at a concrete input. -/
theorem c5_witness :
    Apply 64 Rounding.towardPositive 999 0 2 Signc.positive
      = applySpec Rounding.towardPositive 999 2 Signc.positive :=
  c5_apply_follows_spec.1 Rounding.towardPositive 999 0 2 Signc.positive
    (by norm_num) (by norm_num) (by decide)

/-- C7 (confirmed).  `HandleSignals` returns the primary value exactly
when the intersection of sticky signals and trap mask is empty, the
fallback otherwise, and leaves the context (signals and traps included)
unchanged — for both formats. -/
theorem c7_handle_signals :
    ∀ (ctx : Ctx) (p64 f64 : X64) (p32 f32 : X32),
      Context64.HandleSignals ctx p64 f64
        = (ctx, if ctx.signals &&& ctx.traps = 0 then p64 else f64) ∧
      Context32.HandleSignals ctx p32 f32
        = (ctx, if ctx.signals &&& ctx.traps = 0 then p32 else f32) := by
  intro ctx p64 f64 p32 f32
  constructor
  · unfold Context64.HandleSignals
    by_cases h : ctx.signals &&& ctx.traps = 0 <;> simp [h]
  · unfold Context32.HandleSignals
    by_cases h : ctx.signals &&& ctx.traps = 0 <;> simp [h]

/-- C2 (code bug).  The exponent-alignment block of `Context64.Add`
updates the exponent before computing the shift, so both shifts are
zero and the coefficients are never scaled: `12.3 + 0.77`, i.e.
`(coe 123, exp -1) + (coe 77, exp -2)`, evaluates to `(coe 200, exp -1)`
(= 20.0) with no signal, instead of the correct `(coe 1307, exp -2)`.
The sibling implementation `FixedPoint.Add` (src/unnamed/part_013) and
the repository's own test for mixed-exponent addition implement the
claimed min-exponent scaling. -/
theorem c2_failing_input_eval :
    ((X64.pack Kind.finite Signc.positive (-1) 123).map (fun a =>
      ((X64.pack Kind.finite Signc.positive (-2) 77).map (fun b =>
        ((Context64.Add basicContext64 a b).1.signals,
         (Context64.Add basicContext64 a b).2.unpack)))))
    = some (some (0, (Kind.finite, Signc.positive, -1, 200))) := by decide

/-- C3 (amended).  Any `Context64.Add` with a NaN operand returns that
NaN operand itself, unchanged: the first operand wins if it is a NaN
(quiet or signaling), otherwise a NaN second operand is returned.  No
signal is raised and a signaling NaN is not quieted. -/
theorem c3_nan_operands :
    ∀ (ctx : Ctx) (a b : X64),
      ((a.unpack.1 = Kind.signaling ∨ a.unpack.1 = Kind.quiet) →
        Context64.Add ctx a b = (ctx, a)) ∧
      (¬(a.unpack.1 = Kind.signaling ∨ a.unpack.1 = Kind.quiet) →
        (b.unpack.1 = Kind.signaling ∨ b.unpack.1 = Kind.quiet) →
        Context64.Add ctx a b = (ctx, b)) := by
  intro ctx a b
  unfold Context64.Add
  rcases ha : a.unpack with ⟨ak, as1, ae, ac⟩
  rcases hb : b.unpack with ⟨bk, bs1, be, bc⟩
  dsimp only
  constructor
  · intro h
    rw [if_pos h]
  · intro h1 h2
    rw [if_neg h1, if_pos h2]

/-- C3 (counterexample to the claim as stated).  Adding a signaling NaN
to the finite value 1 on the basic context returns the signaling NaN
itself — still signaling, not a quiet NaN — and leaves the context's
sticky signals empty, so `InvalidOperation` is not set. -/
theorem c3_counterexample :
    ((X64.pack Kind.finite Signc.positive 0 1).map (fun b =>
      ((Context64.Add basicContext64 (newSpecial64 Signc.positive Kind.signaling) b).1.signals,
       (Context64.Add basicContext64 (newSpecial64 Signc.positive Kind.signaling) b).2.unpack.1)))
    = some (0, Kind.signaling) := by decide

/-- C3 witness: the amended NaN rules at concrete inputs. -/
theorem c3_witness :
    Context64.Add basicContext64 (newSpecial64 Signc.positive Kind.signaling)
        (newSpecial64 Signc.positive Kind.quiet)
      = (basicContext64, newSpecial64 Signc.positive Kind.signaling) ∧
    Context64.Add basicContext64 ((X64.pack Kind.finite Signc.positive 0 1).getD ⟨0⟩)
        (newSpecial64 Signc.negative Kind.quiet)
      = (basicContext64, newSpecial64 Signc.negative Kind.quiet) :=
  ⟨(c3_nan_operands basicContext64 _ _).1 (by decide),
   (c3_nan_operands basicContext64 _ _).2 (by decide) (by decide)⟩

/-- C4 (amended).  With no NaN operand and at least one infinite
operand, `Context64.Add` compares the two operands' signs: equal signs
give Infinity with that sign (which covers Infinity plus a finite of
the same sign), while different signs give a positive signaling NaN
with no signal raised — including both the opposite-sign double
infinity and Infinity plus a finite of the opposite sign. -/
theorem c4_infinity_rules :
    ∀ (ctx : Ctx) (a b : X64),
      ¬(a.unpack.1 = Kind.signaling ∨ a.unpack.1 = Kind.quiet) →
      ¬(b.unpack.1 = Kind.signaling ∨ b.unpack.1 = Kind.quiet) →
      (a.unpack.1 = Kind.infinity ∨ b.unpack.1 = Kind.infinity) →
      (a.unpack.2.1 = b.unpack.2.1 →
        Context64.Add ctx a b = (ctx, newSpecial64 a.unpack.2.1 Kind.infinity)) ∧
      (a.unpack.2.1 ≠ b.unpack.2.1 →
        Context64.Add ctx a b = (ctx, newSpecial64 Signc.positive Kind.signaling)) := by
  intro ctx a b h1 h2 h3
  unfold Context64.Add
  rcases ha : a.unpack with ⟨ak, as1, ae, ac⟩
  rcases hb : b.unpack with ⟨bk, bs1, be, bc⟩
  rw [ha] at h1 h3
  rw [hb] at h2 h3
  dsimp only at h1 h2 h3 ⊢
  rw [if_neg h1, if_neg h2, if_pos h3]
  constructor
  · intro h
    rw [if_pos h]
  · intro h
    rw [if_neg h]

/-- C4 (counterexample to the claim as stated).  Adding `+Infinity` and
`-Infinity` on the basic context leaves the sticky signals empty — the
claimed `InvalidOperation` is not raised (a signaling NaN is returned).
And `-Infinity` plus the finite `+5` returns a signaling NaN, not the
Infinity the claim requires for every finite operand. -/
theorem c4_counterexample :
    (Context64.Add basicContext64 (newSpecial64 Signc.positive Kind.infinity)
        (newSpecial64 Signc.negative Kind.infinity)).1.signals = 0 ∧
    (Context64.Add basicContext64 (newSpecial64 Signc.positive Kind.infinity)
        (newSpecial64 Signc.negative Kind.infinity)).2.unpack.1 = Kind.signaling ∧
    ((X64.pack Kind.finite Signc.positive 0 5).map (fun a =>
        (Context64.Add basicContext64 (newSpecial64 Signc.negative Kind.infinity) a).2.unpack.1))
      = some Kind.signaling := by
  refine ⟨by decide, by decide, by decide⟩

/-- C4 witness: the amended infinity rules at concrete inputs. -/
theorem c4_witness :
    Context64.Add basicContext64 (newSpecial64 Signc.positive Kind.infinity)
        (newSpecial64 Signc.positive Kind.infinity)
      = (basicContext64, newSpecial64 Signc.positive Kind.infinity) ∧
    Context64.Add basicContext64 (newSpecial64 Signc.positive Kind.infinity)
        (newSpecial64 Signc.negative Kind.infinity)
      = (basicContext64, newSpecial64 Signc.positive Kind.signaling) :=
  ⟨(c4_infinity_rules basicContext64 _ _ (by decide) (by decide) (by decide)).1 (by decide),
   (c4_infinity_rules basicContext64 _ _ (by decide) (by decide) (by decide)).2 (by decide)⟩

/-- C10 (confirmed).  `Round` takes no context and returns no signal,
so it cannot add a signal to any context (its whole interface is
`(value, mode, precision) -> value-or-error`).  The claim's example
value, packed from `(finite, +, 96, 9999999)`, comes back from
`Round(TiesToEven, 5)` with a nil error decoding as `+Infinity` (for
that input the encoder has already produced an Infinity bit pattern, so
`Round` returns it unchanged); a value that genuinely decodes as finite
with exponent 96 and a 6-digit coefficient is replaced by the canonical
`+Infinity` through the `exp > eMax` branch, again with a nil error.
Finally, `Context64.Add` on two finite-decoding operands whose rounded
sum pushes the exponent past `E_max` returns `+Infinity` while leaving
the context — and in particular its sticky signals — unchanged, shown
both on the basic context (signals 0 stay 0, no `Overflow`) and on a
context with pre-existing signal bits 37 (they stay exactly 37). -/
theorem c10_round_overflow_silent :
    ((X32.pack Kind.finite Signc.positive 96 9999999).map (fun x =>
        (x.Round Rounding.tiesToEven 5).map X32.unpack))
      = some (some (Kind.infinity, Signc.positive, 0, 0)) ∧
    X32.unpack ⟨(3 <<< 29) + (5 <<< 21) + 999999⟩ = (Kind.finite, Signc.positive, 96, 999999) ∧
    X32.Round ⟨(3 <<< 29) + (5 <<< 21) + 999999⟩ Rounding.tiesToEven 5
      = some (newSpecial32 Signc.positive Kind.infinity) ∧
    X64.unpack ⟨(3 <<< 61) + (14 <<< 51) + 9999998⟩ = (Kind.finite, Signc.positive, 384, 9999998) ∧
    Context64.Add { basicContext64 with precision := 5 }
        ⟨(3 <<< 61) + (14 <<< 51) + 9999998⟩ ⟨(3 <<< 61) + (14 <<< 51) + 1⟩
      = ({ basicContext64 with precision := 5 }, newSpecial64 Signc.positive Kind.infinity) ∧
    Context64.Add ⟨0, 37, 5, Rounding.tiesToEven, DefaultLocale⟩
        ⟨(3 <<< 61) + (14 <<< 51) + 9999998⟩ ⟨(3 <<< 61) + (14 <<< 51) + 1⟩
      = (⟨0, 37, 5, Rounding.tiesToEven, DefaultLocale⟩,
          newSpecial64 Signc.positive Kind.infinity) := by
  refine ⟨by decide, by decide, by decide, by decide, by decide, by decide⟩

/-- A special token (`nan`, `inf`, ...) never yields a digit string that
`ParseUint` accepts: each of the nine tokens leaves a letter string. -/
lemma isSpecial_digits_unparseable (ew : Nat) (n : List Char) (sg : Signc)
    (ds : List Char) (e : Int) (hsp : (isSpecial n).2.2 = true)
    (hg : getDigitString ew n = (sg, ds, e, true)) :
    parseUint64 ds = none := by
  unfold isSpecial at hsp
  split_ifs at hsp with h1 h2 h3 h4
  · rcases h1 with h | h <;> subst h
    · have hds : (['n', 'a', 'n'] : List Char) = ds := congrArg (fun t => t.2.1) hg
      rw [← hds]; decide
    · have hds : (['n', 'a', 'n'] : List Char) = ds := congrArg (fun t => t.2.1) hg
      rw [← hds]; decide
  · subst h2
    have hds : (['n', 'a', 'n'] : List Char) = ds := congrArg (fun t => t.2.1) hg
    rw [← hds]; decide
  · rcases h3 with h | h | h | h <;> subst h
    · have hds : (['i', 'n', 'f'] : List Char) = ds := congrArg (fun t => t.2.1) hg
      rw [← hds]; decide
    · have hds : (['i', 'n', 'f', 'i', 'n', 'i', 't', 'y'] : List Char) = ds :=
        congrArg (fun t => t.2.1) hg
      rw [← hds]; decide
    · have hds : (['i', 'n', 'f'] : List Char) = ds := congrArg (fun t => t.2.1) hg
      rw [← hds]; decide
    · have hds : (['i', 'n', 'f', 'i', 'n', 'i', 't', 'y'] : List Char) = ds :=
        congrArg (fun t => t.2.1) hg
      rw [← hds]; decide
  · rcases h4 with h | h <;> subst h
    · have hds : (['i', 'n', 'f'] : List Char) = ds := congrArg (fun t => t.2.1) hg
      rw [← hds]; decide
    · have hds : (['i', 'n', 'f', 'i', 'n', 'i', 't', 'y'] : List Char) = ds :=
        congrArg (fun t => t.2.1) hg
      rw [← hds]; decide

lemma parseInput_overflow (ctx : Ctx) (s : List Char) (maxC : Nat) (eM : Int)
    (ew : Nat) (sg : Signc) (ds : List Char) (e : Int) (v : Nat)
    (hg : getDigitString ew (normalizeInput s ctx.locale) = (sg, ds, e, true))
    (hv : parseUint64 ds = some v)
    (hover : v > maxC ∨ e > eM) :
    parseInput ctx s maxC eM ew = (Signc.positive, Kind.signaling, 0, 0, SignalOverflow) := by
  have hne : ¬(normalizeInput s ctx.locale = []) := by
    intro h
    rw [h] at hg
    exact Bool.noConfusion (congrArg (fun t => t.2.2.2) hg)
  have hspf : ¬((isSpecial (normalizeInput s ctx.locale)).2.2 = true) := by
    intro h
    rw [isSpecial_digits_unparseable ew _ _ _ _ h hg] at hv
    exact Option.noConfusion hv
  unfold parseInput
  rw [if_neg hne]
  rcases hspv : isSpecial (normalizeInput s ctx.locale) with ⟨sg2, k2, sp⟩
  rw [hspv] at hspf
  dsimp only at hspf ⊢
  have hsp0 : sp = false := by
    cases sp
    · rfl
    · exact absurd rfl hspf
  subst hsp0
  rw [if_neg (by decide)]
  rw [hg]
  dsimp only
  rw [hv]
  rw [if_neg (by decide)]
  dsimp only
  rw [if_pos hover]

/-- C8 (confirmed).  For every input string whose normalized form is a
numeric literal with digit string `ds` and derived exponent `e`, if
`ParseUint` accepts `ds` with a value past the format's MaxCoefficient,
or `e` exceeds the format's E_max (reachable only through the `int8`
wrap of a fraction longer than 127 digits in the 32-bit format), then
`Parse` adds `Overflow` to the context's sticky signals and returns a
positive signaling NaN.  Proved for `Context64.Parse` and
`Context32.Parse`. -/
theorem c8_parse_overflow_snan :
    (∀ (ctx : Ctx) (s : List Char) (sg : Signc) (ds : List Char) (e : Int) (v : Nat),
      getDigitString 16 (normalizeInput s ctx.locale) = (sg, ds, e, true) →
      parseUint64 ds = some v →
      (v > maxCoefficient64 ∨ e > eMax64) →
      Context64.Parse ctx s
        = ({ ctx with signals := ctx.signals ||| SignalOverflow },
           newSpecial64 Signc.positive Kind.signaling)) ∧
    (∀ (ctx : Ctx) (s : List Char) (sg : Signc) (ds : List Char) (e : Int) (v : Nat),
      getDigitString 8 (normalizeInput s ctx.locale) = (sg, ds, e, true) →
      parseUint64 ds = some v →
      (v > maxCoefficient32 ∨ e > eMax32) →
      Context32.Parse ctx s
        = ({ ctx with signals := ctx.signals ||| SignalOverflow },
           newSpecial32 Signc.positive Kind.signaling)) := by
  constructor
  · intro ctx s sg ds e v hg hv hover
    unfold Context64.Parse
    rw [parseInput_overflow ctx s maxCoefficient64 eMax64 16 sg ds e v hg hv hover]
    dsimp only
    rw [if_pos (by decide)]
  · intro ctx s sg ds e v hg hv hover
    unfold Context32.Parse
    rw [parseInput_overflow ctx s maxCoefficient32 eMax32 8 sg ds e v hg hv hover]
    dsimp only
    rw [if_pos (by decide)]

/-- C8 witness: an 8-digit literal overflows the 32-bit coefficient and
a 17-digit literal overflows the 64-bit coefficient. -/
theorem c8_witness :
    Context64.Parse basicContext64 "99999999999999999".toList
      = ({ basicContext64 with signals := basicContext64.signals ||| SignalOverflow },
         newSpecial64 Signc.positive Kind.signaling) ∧
    Context32.Parse basicContext32 "12345678".toList
      = ({ basicContext32 with signals := basicContext32.signals ||| SignalOverflow },
         newSpecial32 Signc.positive Kind.signaling) :=
  ⟨c8_parse_overflow_snan.1 basicContext64 "99999999999999999".toList
      Signc.positive "99999999999999999".toList 0 99999999999999999
      (by decide) (by decide) (by decide),
   c8_parse_overflow_snan.2 basicContext32 "12345678".toList
      Signc.positive "12345678".toList 0 12345678
      (by decide) (by decide) (by decide)⟩

lemma wrapIntW16_id (z : Int) (h1 : -32768 ≤ z) (h2 : z < 32768) :
    wrapIntW 16 z = z := by
  unfold wrapIntW
  norm_num
  omega

lemma quantBump_eq_bumpSpec (mode : Rounding) (sg : Signc) (c0 d : Nat) :
    (match mode with
      | Rounding.tiesToEven =>
        if c0 % d > d / 2 ∨ (c0 % d = d / 2 ∧ c0 / d &&& 1 = 1)
        then c0 / d + 1 else c0 / d
      | Rounding.tiesToAway =>
        if c0 % d ≥ d / 2 then c0 / d + 1 else c0 / d
      | Rounding.towardPositive =>
        if c0 % d > 0 ∧ sg = Signc.positive then c0 / d + 1 else c0 / d
      | Rounding.towardNegative =>
        if c0 % d > 0 ∧ sg = Signc.negative then c0 / d + 1 else c0 / d
      | Rounding.towardZero => c0 / d)
    = bumpSpec mode sg c0 d := by
  unfold bumpSpec
  cases mode with
  | tiesToEven =>
    rw [andMask1]
    by_cases he : c0 % d = d / 2 <;>
      by_cases hg : c0 % d > d / 2 <;>
        by_cases ho : c0 / d % 2 = 1 <;>
          simp [he, hg, ho]
  | tiesToAway =>
    by_cases hg : c0 % d ≥ d / 2 <;> simp [hg]
  | towardPositive =>
    by_cases hp : sg = Signc.positive <;>
      by_cases hr : c0 % d > 0 <;> simp [hp, hr]
  | towardNegative =>
    by_cases hp : sg = Signc.negative <;>
      by_cases hr : c0 % d > 0 <;> simp [hp, hr]
  | towardZero => simp

/-- C6 (amended).  `quantize64` behaves exactly as claimed whenever the
(16-bit-wrapped) shift has magnitude at most 19, the extent of the
`pow10` table: a non-finite input comes back unchanged with
`InvalidOperation`; a zero shift returns the input with clear signals;
a negative shift multiplies the coefficient by `10^(-shift)` and
returns the zeroed value with `Overflow` when the product exceeds
MaxCoefficient, otherwise packs the product at the target exponent; a
positive shift divides by `10^shift`, bumps the quotient by the mode's
tie rules (`bumpSpec`), and packs at the target exponent.  Beyond the
table (`|shift| > 19`) `pow10` returns 0 and the Go code divides by
zero — see `c6_counterexample`. -/
theorem c6_quantize64_amended :
    (∀ (x : X64) (t : Int) (mode : Rounding),
      x.unpack.1 ≠ Kind.finite →
      quantize64 x t mode = some (x, SignalInvalidOperation)) ∧
    (∀ (x : X64) (mode : Rounding) (sg : Signc) (e0 : Int) (c0 : Nat),
      x.unpack = (Kind.finite, sg, e0, c0) →
      quantize64 x e0 mode = some (x, 0)) ∧
    (∀ (x : X64) (t : Int) (mode : Rounding) (sg : Signc) (e0 : Int) (c0 : Nat),
      x.unpack = (Kind.finite, sg, e0, c0) →
      -19 ≤ t - e0 → t - e0 < 0 →
      c0 * 10 ^ (e0 - t).toNat > maxCoefficient64 →
      quantize64 x t mode = some (⟨0⟩, SignalOverflow)) ∧
    (∀ (x : X64) (t : Int) (mode : Rounding) (sg : Signc) (e0 : Int) (c0 : Nat) (r : X64),
      x.unpack = (Kind.finite, sg, e0, c0) →
      -19 ≤ t - e0 → t - e0 < 0 →
      ¬(c0 * 10 ^ (e0 - t).toNat > maxCoefficient64) →
      X64.pack Kind.finite sg t (c0 * 10 ^ (e0 - t).toNat) = some r →
      quantize64 x t mode = some (r, 0)) ∧
    (∀ (x : X64) (t : Int) (mode : Rounding) (sg : Signc) (e0 : Int) (c0 : Nat) (r : X64),
      x.unpack = (Kind.finite, sg, e0, c0) →
      0 < t - e0 → t - e0 ≤ 19 →
      X64.pack Kind.finite sg t (bumpSpec mode sg c0 (10 ^ (t - e0).toNat)) = some r →
      quantize64 x t mode = some (r, 0)) := by
  refine ⟨?_, ?_, ?_, ?_, ?_⟩
  · intro x t mode h
    unfold quantize64
    rcases hx : x.unpack with ⟨k, sg, e0, c0⟩
    rw [hx] at h
    dsimp only at h ⊢
    rw [if_pos h]
  · intro x mode sg e0 c0 hx
    unfold quantize64
    rw [hx]
    dsimp only
    rw [if_neg (by simp)]
    have hw : wrapIntW 16 (e0 - e0) = 0 := by
      rw [show e0 - e0 = 0 by ring]
      decide
    rw [hw]
    rw [if_pos rfl]
  · intro x t mode sg e0 c0 hx hlo hneg hover
    unfold quantize64
    rw [hx]
    dsimp only
    rw [if_neg (by simp)]
    have hw : wrapIntW 16 (t - e0) = t - e0 := wrapIntW16_id _ (by omega) (by omega)
    rw [hw]
    rw [if_neg (by omega), if_pos hneg]
    rw [show -(t - e0) = e0 - t by ring]
    rw [show pow10 19 (e0 - t).toNat = 10 ^ (e0 - t).toNat from by
      unfold pow10
      rw [if_pos (by omega)]]
    rw [if_neg (Nat.pos_iff_ne_zero.mp (Nat.pow_pos (by norm_num)))]
    rw [if_pos ((Nat.div_lt_iff_lt_mul (Nat.pow_pos (by norm_num))).mpr hover)]
  · intro x t mode sg e0 c0 r hx hlo hneg hover hpack
    unfold quantize64
    rw [hx]
    dsimp only
    rw [if_neg (by simp)]
    have hw : wrapIntW 16 (t - e0) = t - e0 := wrapIntW16_id _ (by omega) (by omega)
    rw [hw]
    rw [if_neg (by omega), if_pos hneg]
    rw [show -(t - e0) = e0 - t by ring]
    rw [show pow10 19 (e0 - t).toNat = 10 ^ (e0 - t).toNat from by
      unfold pow10
      rw [if_pos (by omega)]]
    rw [if_neg (Nat.pos_iff_ne_zero.mp (Nat.pow_pos (by norm_num)))]
    rw [if_neg (fun h => hover ((Nat.div_lt_iff_lt_mul (Nat.pow_pos (by norm_num))).mp h))]
    rw [hpack]
  · intro x t mode sg e0 c0 r hx hpos hle hpack
    unfold quantize64
    rw [hx]
    dsimp only
    rw [if_neg (by simp)]
    have hw : wrapIntW 16 (t - e0) = t - e0 := wrapIntW16_id _ (by omega) (by omega)
    rw [hw]
    rw [if_neg (by omega), if_neg (by omega)]
    rw [show pow10 19 (t - e0).toNat = 10 ^ (t - e0).toNat from by
      unfold pow10
      rw [if_pos (by omega)]]
    rw [if_neg (Nat.pos_iff_ne_zero.mp (Nat.pow_pos (by norm_num)))]
    rw [quantBump_eq_bumpSpec mode sg c0 (10 ^ (t - e0).toNat), hpack]

/-- C6 (counterexample to the claim as stated).  Quantizing `1` (a
finite value with exponent 0 and coefficient 1) to target exponent
`-30` has `shift = -30`: the claim requires the zeroed value with
`Overflow` because `1 * 10^30` exceeds MaxCoefficient, but `pow10`
falls off its 19-entry table and returns 0, and the Go code then
divides by zero — a run-time panic, modelled as `none`. -/
theorem c6_counterexample :
    ((X64.pack Kind.finite Signc.positive 0 1).map (fun x =>
      quantize64 x (-30) Rounding.tiesToEven)) = some none ∧
    some (none : Option (X64 × Nat))
      ≠ some (some ((⟨0⟩ : X64), SignalOverflow)) := by
  refine ⟨by decide, by decide⟩

/-- C6 witness: the amended branches at concrete inputs (quantizing
`12.345` up to exponent 0 with `TowardPositive` gives `13`, scenario
S7; quantizing `1` down to exponent `-2` gives `100`). -/
theorem c6_witness :
    quantize64 ((X64.pack Kind.finite Signc.positive (-3) 12345).getD ⟨0⟩) 0
        Rounding.towardPositive
      = some ((X64.pack Kind.finite Signc.positive 0
          (bumpSpec Rounding.towardPositive Signc.positive 12345 (10 ^ 3))).getD ⟨0⟩, 0) ∧
    quantize64 ((X64.pack Kind.finite Signc.positive 0 1).getD ⟨0⟩) (-2)
        Rounding.tiesToEven
      = some ((X64.pack Kind.finite Signc.positive (-2)
          (1 * 10 ^ ((0 : Int) - (-2)).toNat)).getD ⟨0⟩, 0) := by
  constructor
  · exact c6_quantize64_amended.2.2.2.2 _ 0 Rounding.towardPositive Signc.positive (-3) 12345 _
      (by decide) (by decide) (by decide) (by decide)
  · exact c6_quantize64_amended.2.2.2.1 _ (-2) Rounding.tiesToEven Signc.positive 0 1 _
      (by decide) (by decide) (by decide) (by decide) (by decide)
